import Mathlib

/-
Verification of the locator core of cocaine-core against its specification.

The development shallowly embeds src/locator.cpp: the locator facade
(attach, detach, resolve, refresh), the peer lifecycle handlers
(on_announce_event, on_announce_timer, on_message, on_failure, on_timeout)
and the data they manipulate. The router internals (router_t, group_index_t)
are declared in locator.cpp but implemented in routing.inl, which is not part
of the sources at hand; those definitions are modelled from the specification
text and are marked as such in their doc comments.

Conventions: std::map and std::set are modelled as association lists with
unique keys, where erasure filters out every entry with the given key and
insertion first erases and then appends. Descriptors are abstract
equality-comparable blobs, modelled as natural numbers. Exceptions are
modelled as explicit outcome constructors carrying the state at the point
where the exception escapes.
-/

/-- Service names are plain strings. -/
abbrev SvcName := String

/-- Node uuids are plain strings. -/
abbrev Uuid := String

/-- Service descriptors are abstract equality-comparable blobs; the core never
introspects them, so a natural number is a faithful stand-in. -/
abbrev Desc := Nat

/-- Peer key: the immutable triple (uuid, hostname, locator_port), the
locator_t::key_type of the source. -/
structure Key where
  uuid : Uuid
  hostname : String
  port : Nat
deriving DecidableEq

/-- Lookup in an association list keyed by strings, the model of
std::map::find. -/
def alookup {α : Type} : List (String × α) → String → Option α
  | [], _ => none
  | p :: rest, k => if p.1 = k then some p.2 else alookup rest k

/-- Erase every entry with the given key, the model of std::map::erase. -/
def aerase {α : Type} (l : List (String × α)) (k : String) : List (String × α) :=
  l.filter (fun p => decide (p.1 ≠ k))

/-- Insert or overwrite the entry for a key, the model of std::map
operator-bracket assignment. -/
def aset {α : Type} (l : List (String × α)) (k : String) (v : α) : List (String × α) :=
  aerase l k ++ [(k, v)]

/-- Modelled from the spec: group_index_t of routing.inl (declared at
locator.cpp lines 92-127). Three parallel vectors services, declared weights
and used weights, plus the cached sum of the used weights. -/
structure GroupIndex where
  services : List SvcName
  weights : List Nat
  used : List Nat
  sum : Nat
deriving DecidableEq

/-- Modelled from the spec: construction from a service-to-weight map; all
used weights start at zero. -/
def GroupIndex.ofMap (g : List (SvcName × Nat)) : GroupIndex :=
  { services := g.map Prod.fst
    weights := g.map Prod.snd
    used := g.map (fun _ => 0)
    sum := 0 }

/-- Modelled from the spec: group_index_t::add - mark the service at the given
index present, setting its used weight to the declared weight and updating the
cached sum. -/
def GroupIndex.add (g : GroupIndex) (i : Nat) : GroupIndex :=
  { g with
    used := g.used.set i (g.weights.getD i 0)
    sum := g.sum - g.used.getD i 0 + g.weights.getD i 0 }

/-- Modelled from the spec: group_index_t::remove - mark the service at the
given index absent, zeroing its used weight and updating the cached sum. -/
def GroupIndex.remove (g : GroupIndex) (i : Nat) : GroupIndex :=
  { g with
    used := g.used.set i 0
    sum := g.sum - g.used.getD i 0 }

/-- Index of a service inside a group's services vector, the model of the
groups inverted index {service: {group: index in services vector}}. -/
def group_find_index (g : GroupIndex) (n : SvcName) : Nat :=
  g.services.findIdx (fun s => decide (s = n))

/-- Modelled from the spec: groups_t::add_service - mark the service present
in every group that contains it. -/
def groups_add_service (gs : List (SvcName × GroupIndex)) (n : SvcName) :
    List (SvcName × GroupIndex) :=
  gs.map (fun g => if n ∈ g.2.services then (g.1, g.2.add (group_find_index g.2 n)) else g)

/-- Modelled from the spec: groups_t::remove_service - mark the service absent
in every group that contains it. -/
def groups_remove_service (gs : List (SvcName × GroupIndex)) (n : SvcName) :
    List (SvcName × GroupIndex) :=
  gs.map (fun g => if n ∈ g.2.services then (g.1, g.2.remove (group_find_index g.2 n)) else g)

/-- Modelled from the spec: locator_t::router_t state (declared at locator.cpp
lines 131-223). The forward index service -> uuids of remote providers, the
inverted index uuid -> {service -> descriptor}, the routing group table and
the random generator state used by weighted selection. -/
structure RouterState where
  forward : List (SvcName × List Uuid)
  inverted : List (Uuid × List (SvcName × Desc))
  groups : List (SvcName × GroupIndex)
  seed : Nat
deriving DecidableEq

/-- A router with empty indices, the model of a freshly constructed router_t. -/
def RouterState.empty : RouterState :=
  { forward := [], inverted := [], groups := [], seed := 0 }

/-- Modelled from the spec: router_t::add - insert a remote service into both
indices; groups are touched only on the first remote presence of the name. -/
def RouterState.addR (r : RouterState) (u : Uuid) (n : SvcName) (d : Desc) : RouterState :=
  let uuids := (alookup r.forward n).getD []
  let entry := (alookup r.inverted u).getD []
  { r with
    forward := aset r.forward n (if u ∈ uuids then uuids else uuids ++ [u])
    inverted := aset r.inverted u (aset entry n d)
    groups := if uuids = [] then groups_add_service r.groups n else r.groups }

/-- Modelled from the spec: router_t::remove - remove a remote service from
both indices; groups are touched only on the last remote absence of the name. -/
def RouterState.removeR (r : RouterState) (u : Uuid) (n : SvcName) : RouterState :=
  let uuids := ((alookup r.forward n).getD []).filter (fun x => decide (x ≠ u))
  let entry := aerase ((alookup r.inverted u).getD []) n
  { r with
    forward := if uuids = [] then aerase r.forward n else aset r.forward n uuids
    inverted := aset r.inverted u entry
    groups := if uuids = [] then groups_remove_service r.groups n else r.groups }

/-- Modelled from the spec: router_t::add_local - for every group containing
the name, mark it present. The router stores no local catalog of its own. -/
def RouterState.add_local (r : RouterState) (n : SvcName) : RouterState :=
  { r with groups := groups_add_service r.groups n }

/-- Modelled from the spec: router_t::remove_local - if the forward index
still lists remote providers of the name, group state stays present; else the
name is marked absent everywhere. -/
def RouterState.remove_local (r : RouterState) (n : SvcName) : RouterState :=
  if (alookup r.forward n).isSome then r
  else { r with groups := groups_remove_service r.groups n }

/-- Modelled from the spec: router_t::update_remote - symmetric difference
between the snapshot and the current inverted entry, by deep pair equality; a
descriptor change therefore shows up as a removal plus an addition. Returns
the new state, the added pairs and the removed pairs. -/
def RouterState.update_remote (r : RouterState) (u : Uuid) (dump : List (SvcName × Desc)) :
    RouterState × List (SvcName × Desc) × List (SvcName × Desc) :=
  let current := (alookup r.inverted u).getD []
  let added := dump.filter (fun p => decide (p ∉ current))
  let removed := current.filter (fun p => decide (p ∉ dump))
  let r1 := removed.foldl (fun acc p => acc.removeR u p.1) r
  let r2 := added.foldl (fun acc p => acc.addR u p.1 p.2) r1
  (r2, added, removed)

/-- Modelled from the spec: router_t::remove_remote - drop the uuid from all
indices in one shot, returning the services that were dropped. -/
def RouterState.remove_remote (r : RouterState) (u : Uuid) :
    RouterState × List (SvcName × Desc) :=
  let removed := (alookup r.inverted u).getD []
  let r1 := removed.foldl (fun acc p => acc.removeR u p.1) r
  ({ r1 with inverted := aerase r1.inverted u }, removed)

/-- Modelled from the spec: seeding of a new group's used weights, consulting
only the remote forward index (see the design note calling this behavior
accidental: the local catalog is not consulted). -/
def RouterState.seed_group (r : RouterState) (g : List (SvcName × Nat)) : GroupIndex :=
  (g.map Prod.fst).foldl
    (fun idx n =>
      if (alookup r.forward n).isSome then idx.add (group_find_index idx n) else idx)
    (GroupIndex.ofMap g)

/-- Modelled from the spec: router_t::add_group - replace any existing group
with this name, rebuilding the used weights from the forward index. -/
def RouterState.add_group (r : RouterState) (n : SvcName) (g : List (SvcName × Nat)) :
    RouterState :=
  { r with groups := aset r.groups n (r.seed_group g) }

/-- Modelled from the spec: router_t::remove_group - erase the group. -/
def RouterState.remove_group (r : RouterState) (n : SvcName) : RouterState :=
  { r with groups := aerase r.groups n }

/-- Modelled from the spec: the weighted draw scan - accumulate used weights
until the running sum exceeds the drawn value. -/
def pick_scan : List SvcName → List Nat → Nat → Nat → Option SvcName
  | [], _, _, _ => none
  | _ :: _, [], _, _ => none
  | s :: ss, w :: ws, r, acc => if r < acc + w then some s else pick_scan ss ws r (acc + w)

/-- Modelled from the spec: router_t::select_service - a name matching a group
delegates to the weighted draw; an unknown group name, or a group whose
available weight sum is zero, falls back to the name itself. -/
def RouterState.select_service (r : RouterState) (n : SvcName) : SvcName :=
  match alookup r.groups n with
  | none => n
  | some g => if g.sum = 0 then n else (pick_scan g.services g.used (r.seed % g.sum) 0).getD n

/-- An actor wrapping a local service: its public metadata and whether binding
it to its endpoint (actor_t::run) succeeds. -/
structure Actor where
  meta : Desc
  runOk : Bool
deriving DecidableEq

/-- State of locator_t that the claims concern: the ordered local catalog
(name, metadata), the optional port pool (a stack, head is the top) with the
flag saying whether a pool is configured, the router, the peer entries keyed
by the full (uuid, hostname, port) triple, and the flags for a registered
synchronize slot and a configured gateway. -/
structure LocatorState where
  services : List (SvcName × Desc)
  usePool : Bool
  ports : List Nat
  router : RouterState
  remotes : List Key
  hasSync : Bool
  hasGateway : Bool
deriving DecidableEq

/-- Whether a name is already present in the local catalog, the find_if over
m_services used by attach, detach and resolve. -/
def locallyAttached (st : LocatorState) (n : SvcName) : Bool :=
  st.services.any (fun p => decide (p.1 = n))

/-- Whether a peer key currently has an entry in m_remotes. -/
def hasRemote (st : LocatorState) (k : Key) : Bool :=
  decide (k ∈ st.remotes)

/-- Outcome of locator_t::attach (locator.cpp lines 395-436). Error outcomes
carry the state at the point where the exception escapes: the name-conflict
assertion and the empty-pool throw leave everything untouched, while a bind
failure inside actor run escapes after the port was already popped. -/
inductive AttachOutcome
  | ok (st : LocatorState) (broadcast : Option (List (SvcName × Desc)))
  | nameConflict (st : LocatorState)
  | portsExhausted (st : LocatorState)
  | bindFailed (st : LocatorState)
deriving DecidableEq

/-- True exactly on the nameConflict outcome. -/
def AttachOutcome.isNameConflict : AttachOutcome → Bool
  | .nameConflict _ => true
  | _ => false

/-- True exactly on the portsExhausted outcome. -/
def AttachOutcome.isPortsExhausted : AttachOutcome → Bool
  | .portsExhausted _ => true
  | _ => false

/-- locator_t::attach: verify the name is unattached, pop a port when a pool
is configured (throwing when the pool is empty), run the actor, insert into
the local catalog, tell the router, and broadcast a fresh snapshot when the
synchronize slot is registered. The broadcast payload is the catalog after
the insertion. -/
def attach (st : LocatorState) (n : SvcName) (a : Actor) : AttachOutcome :=
  if locallyAttached st n then AttachOutcome.nameConflict st
  else if st.usePool && st.ports.isEmpty then AttachOutcome.portsExhausted st
  else
    let ports2 := if st.usePool then st.ports.tail else st.ports
    if a.runOk then
      let st2 : LocatorState :=
        { st with
          services := st.services ++ [(n, a.meta)]
          ports := ports2
          router := st.router.add_local n }
      AttachOutcome.ok st2 (if st.hasSync then some st2.services else none)
    else AttachOutcome.bindFailed { st with ports := ports2 }

/-- Result of locator_t::resolve. -/
inductive ResolveResult
  | ok (d : Desc)
  | serviceUnavailable
deriving DecidableEq

/-- True exactly on the serviceUnavailable outcome. -/
def ResolveResult.isUnavailable : ResolveResult → Bool
  | .serviceUnavailable => true
  | _ => false

/-- locator_t::resolve (locator.cpp lines 476-501): select a concrete target
through the router, prefer a locally attached service, else delegate to the
gateway (modelled as a pure function), else fail. -/
def resolve (st : LocatorState) (gw : SvcName → Desc) (n : SvcName) : ResolveResult :=
  let target := st.router.select_service n
  match alookup st.services target with
  | some d => ResolveResult.ok d
  | none =>
    if st.hasGateway then ResolveResult.ok (gw target) else ResolveResult.serviceUnavailable

/-- Result of the persistent-store read performed by refresh: a successful
group read, a storage error, or any other exception (carried as a code). -/
inductive StoreRead
  | ok (g : List (SvcName × Nat))
  | storageError
  | otherError (e : Nat)

/-- locator_t::refresh (locator.cpp lines 544-554): on a successful read
replace the group, on a storage error treat the group as deleted, and let any
other exception propagate, leaving the state unchanged. The second component
is the propagated exception, if any. -/
def refresh (st : LocatorState) (n : SvcName) (read : StoreRead) :
    LocatorState × Option Nat :=
  match read with
  | .ok g => ({ st with router := st.router.add_group n g }, none)
  | .storageError => ({ st with router := st.router.remove_group n }, none)
  | .otherError e => (st, some e)

/-- A call made on the gateway collaborator. -/
inductive GatewayCall
  | consume (u : Uuid) (n : SvcName) (d : Desc)
  | cleanup (u : Uuid) (n : SvcName)
deriving DecidableEq

/-- A task posted on the reactor, the model of reactor_t::post with the
deferred_erase_action of locator.cpp lines 681-693. -/
inductive ReactorTask
  | eraseRemote (k : Key)
deriving DecidableEq

/-- A frame arriving on a peer channel: a synchronize chunk carrying a full
snapshot, an error or choke frame, or an unknown message id. -/
inductive Message
  | chunk (dump : List (SvcName × Desc))
  | error
  | choke
  | unknown (id : Nat)

/-- Result of running one channel callback: the new locator state, the calls
made on the gateway in order, and the tasks posted on the reactor. -/
structure HandlerResult where
  st : LocatorState
  calls : List GatewayCall
  posted : List ReactorTask
deriving DecidableEq

/-- Erase a peer entry from m_remotes, the model of m_remotes.erase(key). -/
def eraseRemoteKey (st : LocatorState) (k : Key) : LocatorState :=
  { st with remotes := st.remotes.filter (fun x => decide (x ≠ k)) }

/-- The shared closing sequence of the handlers: Router.remove_remote for the
uuid, followed by one gateway cleanup per dropped service. -/
def closeRemote (st : LocatorState) (u : Uuid) : LocatorState × List GatewayCall :=
  let res := st.router.remove_remote u
  ({ st with router := res.1 }, res.2.map (fun p => GatewayCall.cleanup u p.1))

/-- locator_t::on_message (locator.cpp lines 697-745): a chunk feeds the
snapshot through update_remote and applies the diff to the gateway, removals
first, additions second; an error or choke frame closes the peer, with the
entry erase deferred to the reactor; unknown messages are dropped. -/
def on_message (st : LocatorState) (k : Key) (m : Message) : HandlerResult :=
  match m with
  | .chunk dump =>
    let res := st.router.update_remote k.uuid dump
    { st := { st with router := res.1 }
      calls := res.2.2.map (fun p => GatewayCall.cleanup k.uuid p.1)
            ++ res.2.1.map (fun p => GatewayCall.consume k.uuid p.1 p.2)
      posted := [] }
  | .error =>
    let res := closeRemote st k.uuid
    { st := res.1, calls := res.2, posted := [ReactorTask.eraseRemote k] }
  | .choke =>
    let res := closeRemote st k.uuid
    { st := res.1, calls := res.2, posted := [ReactorTask.eraseRemote k] }
  | .unknown _ => { st := st, calls := [], posted := [] }

/-- locator_t::on_failure (locator.cpp lines 747-767): close the peer and
erase its entry synchronously. -/
def on_failure (st : LocatorState) (k : Key) : HandlerResult :=
  let res := closeRemote st k.uuid
  { st := eraseRemoteKey res.1 k, calls := res.2, posted := [] }

/-- locator_t::on_timeout (locator.cpp lines 769-785): close the peer and
erase its entry synchronously. -/
def on_timeout (st : LocatorState) (k : Key) : HandlerResult :=
  let res := closeRemote st k.uuid
  { st := eraseRemoteKey res.1 k, calls := res.2, posted := [] }

/-- Execute one posted reactor task. -/
def runTask (st : LocatorState) : ReactorTask → LocatorState
  | .eraseRemote k => eraseRemoteKey st k

/-- Execute posted reactor tasks in order, after the posting callback has
returned. -/
def runTasks (st : LocatorState) (ts : List ReactorTask) : LocatorState :=
  ts.foldl runTask st

/-- locator_t::on_announce_event (locator.cpp lines 556-655) after a frame has
been decoded into a peer key: an unknown key whose connection attempt succeeds
gets a fresh peer entry (and a synchronize request); a known key only has its
heartbeat timer reset; a failed resolve or connect drops the discovery. -/
def on_announce_event (st : LocatorState) (k : Key) (connectOk : Bool) : LocatorState :=
  if k ∈ st.remotes then st
  else if connectOk then { st with remotes := st.remotes ++ [k] }
  else st

/-- Node identity configuration: uuid, hostname and the locator port. -/
structure NodeConfig where
  uuid : String
  hostname : String
  locatorPort : Nat
deriving DecidableEq

/-- The announce timer repeat interval in seconds, from
m_announce_timer start(0.0f, 5.0f) at locator.cpp line 350. -/
def announce_interval : Nat := 5

/-- The announce frame: the peer key (uuid, hostname, locator_port) serialized
as one tuple. -/
def announce_frame (cfg : NodeConfig) : String × String × Nat :=
  (cfg.uuid, cfg.hostname, cfg.locatorPort)

/-- locator_t::on_announce_timer (locator.cpp lines 657-677): serialize the
peer key and write it to the multicast socket. A failed write is only logged,
so the handler leaves the locator state unchanged either way. -/
def on_announce_timer (cfg : NodeConfig) (st : LocatorState) (_writeOk : Bool) :
    LocatorState × (String × String × Nat) :=
  (st, announce_frame cfg)

/-- A run of announce timer ticks with the given per-tick write results,
collecting the emitted frames. -/
def announce_ticks (cfg : NodeConfig) (st : LocatorState) :
    List Bool → LocatorState × List (String × String × Nat)
  | [] => (st, [])
  | w :: ws =>
    let r := on_announce_timer cfg st w
    let rest := announce_ticks cfg r.1 ws
    (rest.1, r.2 :: rest.2)

/-- One event of the peer lifecycle as driven by the reactor: a decoded
announce (with the outcome of the connection attempt for unknown keys), a
synchronize chunk on a live channel, or a closing condition (an error or choke
frame, a channel failure, or a heartbeat expiry) on a live channel. Closing
runs the callback and then the tasks it posted. -/
inductive PeerEvent
  | announce (k : Key) (connectOk : Bool)
  | chunk (k : Key) (dump : List (SvcName × Desc))
  | close (k : Key)

/-- Dispatch one peer event; channel callbacks can only fire for keys that
still have an entry. -/
def peerStep (st : LocatorState) : PeerEvent → LocatorState
  | .announce k ok => on_announce_event st k ok
  | .chunk k dump => if k ∈ st.remotes then (on_message st k (Message.chunk dump)).st else st
  | .close k =>
    if k ∈ st.remotes then
      let r := on_message st k Message.error
      runTasks r.st r.posted
    else st

/-- Run a sequence of peer events from a state. -/
def peerRun (st : LocatorState) (evs : List PeerEvent) : LocatorState :=
  evs.foldl peerStep st

/-- The locator of a freshly connected federating node: empty catalogs, no
port pool, a configured gateway and a registered synchronize slot. -/
def initLocator : LocatorState :=
  { services := []
    usePool := false
    ports := []
    router := RouterState.empty
    remotes := []
    hasSync := true
    hasGateway := true }

/-- The uuids appearing as top-level keys of the inverted remote catalog. -/
def inverted_uuids (r : RouterState) : List Uuid :=
  r.inverted.map Prod.fst

/-- Invariant for claim C4 (amended): every uuid appearing as a top-level key
of the inverted remote catalog belongs to at least one current peer entry. -/
def PeerInv (st : LocatorState) : Prop :=
  ∀ u, u ∈ inverted_uuids st.router → ∃ k, k ∈ st.remotes ∧ k.uuid = u

/-- A non-federating node with no port pool and nothing attached, the start of
the claim C3 scenario. -/
def c3_st0 : LocatorState :=
  { services := []
    usePool := false
    ports := []
    router := RouterState.empty
    remotes := []
    hasSync := false
    hasGateway := false }

/-- The state after attaching service s1 in the claim C3 scenario. -/
def c3_st1 : LocatorState :=
  { c3_st0 with services := [("s1", 7)] }

/-- First announce key of the claim C4 scenario. -/
def c4_kA : Key := { uuid := "u", hostname := "h1", port := 1 }

/-- Second announce key of the claim C4 scenario: same uuid, other hostname. -/
def c4_kB : Key := { uuid := "u", hostname := "h2", port := 1 }

/-- Event sequence of the claim C4 scenario: two announces sharing a uuid but
differing in hostname, then a synchronize chunk over the first channel. -/
def c4_events : List PeerEvent :=
  [PeerEvent.announce c4_kA true, PeerEvent.announce c4_kB true,
   PeerEvent.chunk c4_kA [("s", 5)]]

/-- A node with a configured but exhausted port pool and service a attached,
the claim C5 counterexample state. -/
def c5_st : LocatorState :=
  { services := [("a", 1)]
    usePool := true
    ports := []
    router := RouterState.empty
    remotes := []
    hasSync := false
    hasGateway := false }

/-- An idle node accepting one attach, used to witness the success path of
attach. -/
def c5_ok_st : LocatorState :=
  { services := []
    usePool := false
    ports := []
    router := RouterState.empty
    remotes := []
    hasSync := true
    hasGateway := false }

/-- A node serving a locally, used to witness local resolution. -/
def c1_stA : LocatorState :=
  { services := [("a", 5)]
    usePool := false
    ports := []
    router := RouterState.empty
    remotes := []
    hasSync := true
    hasGateway := true }

/-- A node with an empty catalog and a gateway, used to witness gateway
delegation. -/
def c1_stB : LocatorState :=
  { services := []
    usePool := false
    ports := []
    router := RouterState.empty
    remotes := []
    hasSync := true
    hasGateway := true }

/-- The peer key of the claim C7 witness scenario. -/
def c7_key : Key := { uuid := "u", hostname := "h", port := 2 }

/-- A node already holding service q with descriptor 1 from peer u, about to
receive a republish of q with descriptor 2. -/
def c7_st : LocatorState :=
  { services := []
    usePool := false
    ports := []
    router :=
      { forward := [("q", ["u"])]
        inverted := [("u", [("q", 1)])]
        groups := []
        seed := 0 }
    remotes := [c7_key]
    hasSync := true
    hasGateway := true }

/-- A node whose configured pool holds the single port 9, used to witness the
lost-port path of attach. -/
def c10_st : LocatorState :=
  { services := []
    usePool := true
    ports := [9]
    router := RouterState.empty
    remotes := []
    hasSync := false
    hasGateway := false }

theorem alookup_aerase {α : Type} (l : List (String × α)) (k : String) :
    alookup (aerase l k) k = none := by
  induction l with
  | nil => rfl
  | cons p rest ih =>
    by_cases h : p.1 = k
    · simpa [aerase, List.filter_cons, h] using ih
    · simpa [aerase, List.filter_cons, h, alookup] using ih

theorem alookup_append_of_none {α : Type} (l1 l2 : List (String × α)) (k : String)
    (h : alookup l1 k = none) : alookup (l1 ++ l2) k = alookup l2 k := by
  induction l1 with
  | nil => rfl
  | cons p rest ih =>
    by_cases hp : p.1 = k
    · simp [alookup, hp] at h
    · simp only [alookup, List.cons_append, if_neg hp] at h ⊢
      exact ih h

theorem alookup_aset_self {α : Type} (l : List (String × α)) (k : String) (v : α) :
    alookup (aset l k v) k = some v := by
  rw [aset, alookup_append_of_none _ _ _ (alookup_aerase l k)]
  simp [alookup]

theorem mem_keys_aset {α : Type} {l : List (String × α)} {k u : String} {v : α}
    (h : u ∈ (aset l k v).map Prod.fst) : u ∈ l.map Prod.fst ∨ u = k := by
  rw [aset, List.map_append] at h
  rcases List.mem_append.mp h with h1 | h1
  · rcases List.mem_map.mp h1 with ⟨p, hp, hpu⟩
    exact Or.inl (List.mem_map.mpr ⟨p, (List.mem_filter.mp hp).1, hpu⟩)
  · simp only [List.map_cons, List.map_nil, List.mem_singleton] at h1
    exact Or.inr h1

theorem mem_keys_aerase {α : Type} {l : List (String × α)} {k u : String}
    (h : u ∈ (aerase l k).map Prod.fst) : u ∈ l.map Prod.fst ∧ u ≠ k := by
  rcases List.mem_map.mp h with ⟨p, hp, hpu⟩
  have hf := List.mem_filter.mp hp
  refine ⟨List.mem_map.mpr ⟨p, hf.1, hpu⟩, ?_⟩
  have : p.1 ≠ k := of_decide_eq_true hf.2
  exact hpu ▸ this

theorem mem_inverted_uuids_addR {r : RouterState} {u n : String} {d : Desc} {uq : Uuid}
    (h : uq ∈ inverted_uuids (r.addR u n d)) : uq ∈ inverted_uuids r ∨ uq = u := by
  dsimp only [RouterState.addR, inverted_uuids] at h
  exact mem_keys_aset h

theorem mem_inverted_uuids_removeR {r : RouterState} {u n : String} {uq : Uuid}
    (h : uq ∈ inverted_uuids (r.removeR u n)) : uq ∈ inverted_uuids r ∨ uq = u := by
  dsimp only [RouterState.removeR, inverted_uuids] at h
  exact mem_keys_aset h

theorem mem_inverted_uuids_fold_removeR (l : List (SvcName × Desc)) (u : Uuid) :
    ∀ (r : RouterState) (uq : Uuid),
      uq ∈ inverted_uuids (l.foldl (fun acc p => acc.removeR u p.1) r) →
      uq ∈ inverted_uuids r ∨ uq = u := by
  induction l with
  | nil => exact fun r uq h => Or.inl h
  | cons p rest ih =>
    intro r uq h
    rcases ih (r.removeR u p.1) uq h with h1 | h1
    · exact mem_inverted_uuids_removeR h1
    · exact Or.inr h1

theorem mem_inverted_uuids_fold_addR (l : List (SvcName × Desc)) (u : Uuid) :
    ∀ (r : RouterState) (uq : Uuid),
      uq ∈ inverted_uuids (l.foldl (fun acc p => acc.addR u p.1 p.2) r) →
      uq ∈ inverted_uuids r ∨ uq = u := by
  induction l with
  | nil => exact fun r uq h => Or.inl h
  | cons p rest ih =>
    intro r uq h
    rcases ih (r.addR u p.1 p.2) uq h with h1 | h1
    · exact mem_inverted_uuids_addR h1
    · exact Or.inr h1

theorem mem_inverted_uuids_update_remote {r : RouterState} {u : Uuid}
    {dump : List (SvcName × Desc)} {uq : Uuid}
    (h : uq ∈ inverted_uuids (r.update_remote u dump).1) :
    uq ∈ inverted_uuids r ∨ uq = u := by
  dsimp only [RouterState.update_remote] at h
  rcases mem_inverted_uuids_fold_addR _ u _ uq h with h1 | h1
  · rcases mem_inverted_uuids_fold_removeR _ u r uq h1 with h2 | h2
    · exact Or.inl h2
    · exact Or.inr h2
  · exact Or.inr h1

theorem mem_inverted_uuids_remove_remote {r : RouterState} {u : Uuid} {uq : Uuid}
    (h : uq ∈ inverted_uuids (r.remove_remote u).1) :
    uq ∈ inverted_uuids r ∧ uq ≠ u := by
  dsimp only [RouterState.remove_remote, inverted_uuids] at h
  have h2 := mem_keys_aerase h
  refine ⟨?_, h2.2⟩
  rcases mem_inverted_uuids_fold_removeR _ u r uq h2.1 with h3 | h3
  · exact h3
  · exact absurd h3 h2.2

theorem alookup_inverted_remove_remote (r : RouterState) (u : Uuid) :
    alookup (r.remove_remote u).1.inverted u = none :=
  alookup_aerase _ u

theorem hasRemote_eraseRemoteKey (st : LocatorState) (k : Key) :
    hasRemote (eraseRemoteKey st k) k = false := by
  simp [hasRemote, eraseRemoteKey, List.mem_filter]

theorem peerStep_inv {st : LocatorState} (ev : PeerEvent) (h : PeerInv st) :
    PeerInv (peerStep st ev) := by
  cases ev with
  | announce k ok =>
    by_cases hk : k ∈ st.remotes
    · simpa [peerStep, on_announce_event, hk] using h
    · by_cases hok : ok = true
      · intro u hu
        simp only [peerStep, on_announce_event, if_neg hk, hok, if_pos rfl] at hu ⊢
        rcases h u hu with ⟨k2, hk2, hu2⟩
        exact ⟨k2, List.mem_append_left _ hk2, hu2⟩
      · have hok2 : ok = false := by
          cases ok
          · rfl
          · exact absurd rfl hok
        simpa [peerStep, on_announce_event, hk, hok2] using h
  | chunk k dump =>
    by_cases hk : k ∈ st.remotes
    · intro u hu
      simp only [peerStep, if_pos hk] at hu ⊢
      rcases mem_inverted_uuids_update_remote hu with h1 | h1
      · exact h u h1
      · exact ⟨k, hk, h1.symm⟩
    · simpa [peerStep, hk] using h
  | close k =>
    by_cases hk : k ∈ st.remotes
    · intro u hu
      simp only [peerStep, if_pos hk, runTasks, List.foldl, runTask, on_message,
        closeRemote, eraseRemoteKey] at hu ⊢
      have h1 := mem_inverted_uuids_remove_remote hu
      rcases h u h1.1 with ⟨k2, hk2, hu2⟩
      refine ⟨k2, List.mem_filter.mpr ⟨hk2, decide_eq_true ?_⟩, hu2⟩
      intro hkk
      exact h1.2 ((hkk ▸ hu2).symm)
    · simpa [peerStep, hk] using h

theorem peerRun_inv (evs : List PeerEvent) :
    ∀ (st : LocatorState), PeerInv st → PeerInv (peerRun st evs) := by
  induction evs with
  | nil => exact fun st h => h
  | cons ev rest ih => exact fun st h => ih (peerStep st ev) (peerStep_inv ev h)

theorem peerInv_init : PeerInv initLocator := by
  intro u hu
  simp [initLocator, RouterState.empty, inverted_uuids] at hu

/-- C2: whenever a peer transitions to Closed - on a peer-sent error frame, a
choke frame, a heartbeat timer expiry, or a channel failure - the locator
calls Router.remove_remote(uuid), issues Gateway.cleanup(uuid, name) once per
dropped service (the gateway call list is exactly the cleanup image of the
dropped map), and erases the peer entry (for error and choke frames through
the posted reactor task); afterwards no service of that uuid remains in the
remote catalog. -/
theorem peer_closed_purges_catalog (st : LocatorState) (k : Key) :
    (on_failure st k).calls
        = ((alookup st.router.inverted k.uuid).getD []).map
            (fun p => GatewayCall.cleanup k.uuid p.1)
  ∧ alookup (on_failure st k).st.router.inverted k.uuid = none
  ∧ hasRemote (on_failure st k).st k = false
  ∧ on_timeout st k = on_failure st k
  ∧ (on_message st k Message.error).calls
        = ((alookup st.router.inverted k.uuid).getD []).map
            (fun p => GatewayCall.cleanup k.uuid p.1)
  ∧ alookup (on_message st k Message.error).st.router.inverted k.uuid = none
  ∧ hasRemote (runTasks (on_message st k Message.error).st
        (on_message st k Message.error).posted) k = false
  ∧ on_message st k Message.choke = on_message st k Message.error := by
  refine ⟨rfl, alookup_inverted_remove_remote st.router k.uuid, ?_, rfl, rfl,
    alookup_inverted_remove_remote st.router k.uuid, ?_, rfl⟩
  · exact hasRemote_eraseRemoteKey _ k
  · exact hasRemote_eraseRemoteKey _ k

/-- C8: erasing a peer entry from within a message-arrival callback is always
deferred - an error or choke frame posts a deferred erase task on the reactor
and leaves the peer-entry table untouched during the callback (the erase
becomes effective once the posted task runs), and a chunk never erases -
while a channel-failure or heartbeat-timeout callback erases the entry
synchronously and posts nothing. -/
theorem message_callback_defers_erase (st : LocatorState) (k : Key)
    (dump : List (SvcName × Desc)) (i : Nat) :
    (on_message st k Message.error).posted = [ReactorTask.eraseRemote k]
  ∧ (on_message st k Message.error).st.remotes = st.remotes
  ∧ hasRemote (runTasks (on_message st k Message.error).st
        (on_message st k Message.error).posted) k = false
  ∧ on_message st k Message.choke = on_message st k Message.error
  ∧ (on_message st k (Message.chunk dump)).posted = []
  ∧ (on_message st k (Message.chunk dump)).st.remotes = st.remotes
  ∧ (on_message st k (Message.unknown i)).posted = []
  ∧ (on_failure st k).posted = []
  ∧ hasRemote (on_failure st k).st k = false
  ∧ (on_timeout st k).posted = []
  ∧ hasRemote (on_timeout st k).st k = false := by
  refine ⟨rfl, rfl, ?_, rfl, rfl, rfl, rfl, rfl, ?_, rfl, ?_⟩ <;>
    exact hasRemote_eraseRemoteKey _ k

/-- C4 counterexample: after two announces sharing uuid u but differing in
hostname, followed by one synchronize chunk, the peer-entry table holds two
distinct entries with the same uuid while the remote catalog has the single
top-level key u - so no bijection between peer entries and catalog uuids
exists and two peer entries do share a uuid, refuting the claim. -/
theorem peer_entries_share_uuid :
    (peerRun initLocator c4_events).remotes = [c4_kA, c4_kB]
  ∧ c4_kA ≠ c4_kB
  ∧ c4_kA.uuid = c4_kB.uuid
  ∧ inverted_uuids (peerRun initLocator c4_events).router = ["u"] := by
  decide

/-- C4 amended: peer entries are keyed by the full (uuid, hostname, port)
triple, so announces differing only in address create distinct entries that
collapse onto one uuid in the router and the entry set need not biject with
the catalog uuids; what holds is that every uuid present as a top-level key
of the inverted remote catalog belongs to at least one current peer entry,
while an announced peer may not yet appear in the catalog. -/
theorem catalog_uuid_has_peer_entry (evs : List PeerEvent) (u : Uuid)
    (h : u ∈ inverted_uuids (peerRun initLocator evs).router) :
    ∃ k, k ∈ (peerRun initLocator evs).remotes ∧ k.uuid = u :=
  peerRun_inv evs initLocator peerInv_init u h

/-- Witness for catalog_uuid_has_peer_entry at a concrete event sequence. -/
theorem catalog_uuid_has_peer_entry_witness :
    ∃ k, k ∈ (peerRun initLocator
        [PeerEvent.announce { uuid := "u", hostname := "h", port := 9 } true,
         PeerEvent.chunk { uuid := "u", hostname := "h", port := 9 } [("s", 3)]]).remotes
      ∧ k.uuid = "u" :=
  catalog_uuid_has_peer_entry _ "u" (by decide)

/-- C3 (code bug): attach s1 locally, then load routing group g containing s1.
Group seeding consults only the remote forward index, so the used weight of
s1 stays 0 and the group sum stays 0 although s1 is resolvable in the current
catalog (locally attached) - the claimed invariant used = declared iff
resolvable fails right after the add_group operation. -/
theorem add_group_ignores_local_catalog :
    attach c3_st0 "s1" { meta := 7, runOk := true } = AttachOutcome.ok c3_st1 none
  ∧ locallyAttached c3_st1 "s1" = true
  ∧ alookup ((c3_st1.router.add_group "g" [("s1", 1)]).groups) "g"
      = some { services := ["s1"], weights := [1], used := [0], sum := 0 } := by
  decide

/-- C6: refresh reads the group from the persistent store; a successful read
replaces the group through Router.add_group (the group table then maps the
name to the freshly seeded index), a storage-error read removes the group
without raising, and any other exception propagates with the locator state
unchanged. -/
theorem refresh_spec (st : LocatorState) (n : SvcName) (g : List (SvcName × Nat)) (e : Nat) :
    (refresh st n (StoreRead.ok g)).2 = none
  ∧ (refresh st n (StoreRead.ok g)).1 = { st with router := st.router.add_group n g }
  ∧ alookup (refresh st n (StoreRead.ok g)).1.router.groups n
      = some (st.router.seed_group g)
  ∧ (refresh st n StoreRead.storageError).2 = none
  ∧ (refresh st n StoreRead.storageError).1
      = { st with router := st.router.remove_group n }
  ∧ alookup (refresh st n StoreRead.storageError).1.router.groups n = none
  ∧ refresh st n (StoreRead.otherError e) = (st, some e) := by
  refine ⟨rfl, rfl, ?_, rfl, rfl, ?_, rfl⟩
  · exact alookup_aset_self _ n _
  · exact alookup_aerase _ n

/-- C9: the announce timer repeats every 5 seconds; every tick emits the peer
key (uuid, hostname, locator_port) as one serialized tuple, and ticks leave
the locator state unchanged whatever the write results, so later ticks still
emit announces after a write failure. -/
theorem announce_timer_spec (cfg : NodeConfig) (st : LocatorState) (ws : List Bool) :
    announce_interval = 5
  ∧ (announce_ticks cfg st ws).1 = st
  ∧ (announce_ticks cfg st ws).2 = ws.map (fun _ => announce_frame cfg)
  ∧ announce_frame cfg = (cfg.uuid, cfg.hostname, cfg.locatorPort) := by
  have hfst : ∀ l : List Bool, (announce_ticks cfg st l).1 = st := by
    intro l
    induction l with
    | nil => rfl
    | cons w rest ih => simpa [announce_ticks, on_announce_timer] using ih
  have hsnd : ∀ l : List Bool, (announce_ticks cfg st l).2
      = l.map (fun _ => announce_frame cfg) := by
    intro l
    induction l with
    | nil => rfl
    | cons w rest ih => simp [announce_ticks, on_announce_timer, ih]
  exact ⟨rfl, hfst ws, hsnd ws, rfl⟩

/-- C1: resolve computes the target via Router.select_service; a locally
attached target is served from the local catalog regardless of the gateway or
of any remote providers; an unattached target is delegated to the configured
gateway; and resolve fails with ServiceUnavailable exactly when no gateway is
configured and the target has no local match. -/
theorem resolve_spec (st : LocatorState) (gw : SvcName → Desc) (n : SvcName) :
    (∀ d, alookup st.services (st.router.select_service n) = some d →
        resolve st gw n = ResolveResult.ok d)
  ∧ (alookup st.services (st.router.select_service n) = none → st.hasGateway = true →
        resolve st gw n = ResolveResult.ok (gw (st.router.select_service n)))
  ∧ ((resolve st gw n).isUnavailable
        = (!st.hasGateway && (alookup st.services (st.router.select_service n)).isNone)) := by
  refine ⟨?_, ?_, ?_⟩
  · intro d hd
    simp [resolve, hd]
  · intro hd hg
    simp [resolve, hd, hg]
  · cases hd : alookup st.services (st.router.select_service n) with
    | some d => simp [resolve, hd, ResolveResult.isUnavailable]
    | none =>
      cases hg : st.hasGateway <;>
        simp [resolve, hd, hg, ResolveResult.isUnavailable]

/-- Witness for resolve_spec: a local service is served locally, and with an
empty catalog the gateway serves the target. -/
theorem resolve_spec_witness :
    resolve c1_stA (fun _ => 0) "a" = ResolveResult.ok 5
  ∧ resolve c1_stB (fun _ => 0) "b" = ResolveResult.ok 0 :=
  ⟨(resolve_spec c1_stA (fun _ => 0) "a").1 5 rfl,
   (resolve_spec c1_stB (fun _ => 0) "b").2.1 rfl rfl⟩

/-- C5 counterexample: with a configured but empty port pool and the name
already attached, attach fails with the name conflict, not with
PortsExhausted - refuting the claim that attach fails with PortsExhausted
exactly when a pool is configured and the pool is empty. -/
theorem attach_ports_claim_false :
    c5_st.usePool = true
  ∧ c5_st.ports = []
  ∧ (attach c5_st "a" { meta := 2, runOk := true }).isPortsExhausted = false
  ∧ (attach c5_st "a" { meta := 2, runOk := true }).isNameConflict = true := by
  decide

/-- C5 amended: attach fails with NameConflict exactly when the name is
already locally attached; it fails with PortsExhausted exactly when the name
is not already attached, a pool is configured and the pool is empty (the
conflict check runs first); both failures leave the state untouched; on
success it appends (name, actor) to the local catalog, calls
Router.add_local, and broadcasts the post-insertion snapshot exactly when the
synchronize slot is registered. -/
theorem attach_spec (st : LocatorState) (n : SvcName) (a : Actor) :
    ((attach st n a).isNameConflict = locallyAttached st n)
  ∧ ((attach st n a).isPortsExhausted
        = (!locallyAttached st n && st.usePool && st.ports.isEmpty))
  ∧ (∀ st2, attach st n a = AttachOutcome.nameConflict st2 → st2 = st)
  ∧ (∀ st2, attach st n a = AttachOutcome.portsExhausted st2 → st2 = st)
  ∧ (∀ st2 b, attach st n a = AttachOutcome.ok st2 b →
        st2.services = st.services ++ [(n, a.meta)]
        ∧ st2.router = st.router.add_local n
        ∧ b = (if st.hasSync then some st2.services else none)) := by
  refine ⟨?_, ?_, ?_, ?_, ?_⟩
  · cases h1 : locallyAttached st n <;>
      cases h2 : (st.usePool && st.ports.isEmpty) <;>
        cases h3 : a.runOk <;>
          simp [attach, h1, h2, h3, AttachOutcome.isNameConflict]
  · cases h1 : locallyAttached st n <;>
      cases h2 : (st.usePool && st.ports.isEmpty) <;>
        cases h3 : a.runOk <;>
          simp [attach, h1, h2, h3, AttachOutcome.isPortsExhausted, Bool.and_assoc]
  · intro st2 h
    cases h1 : locallyAttached st n
    · cases h2 : (st.usePool && st.ports.isEmpty)
      · cases h3 : a.runOk <;> simp [attach, h1, h2, h3] at h
      · simp [attach, h1, h2] at h
    · simp [attach, h1] at h
      exact h.symm
  · intro st2 h
    cases h1 : locallyAttached st n
    · cases h2 : (st.usePool && st.ports.isEmpty)
      · cases h3 : a.runOk <;> simp [attach, h1, h2, h3] at h
      · simp [attach, h1, h2] at h
        exact h.symm
    · simp [attach, h1] at h
  · intro st2 b h
    cases h1 : locallyAttached st n
    · cases h2 : (st.usePool && st.ports.isEmpty)
      · cases h3 : a.runOk
        · simp [attach, h1, h2, h3] at h
        · simp [attach, h1, h2, h3] at h
          obtain ⟨hst, hb⟩ := h
          subst hst
          subst hb
          exact ⟨rfl, rfl, rfl⟩
      · simp [attach, h1, h2] at h
    · simp [attach, h1] at h

/-- Witness for attach_spec: a successful attach on an idle node inserts the
service and reports no name conflict. -/
theorem attach_spec_witness :
    (attach c5_ok_st "a" { meta := 3, runOk := true }).isNameConflict = false
  ∧ ∃ st2 b, attach c5_ok_st "a" { meta := 3, runOk := true } = AttachOutcome.ok st2 b
      ∧ st2.services = c5_ok_st.services ++ [("a", 3)] := by
  have h := attach_spec c5_ok_st "a" { meta := 3, runOk := true }
  exact ⟨h.1.trans rfl, _, _, rfl, (h.2.2.2.2 _ _ rfl).1⟩

/-- C7: when a synchronize chunk changes the descriptor of service q from d1
to d2, the gateway call list produced by the chunk handler splits into a
removal segment followed by an addition segment, with cleanup(uuid, q) in the
former and consume(uuid, q, d2) in the latter - so the cleanup is received
strictly before the consume. -/
theorem descriptor_change_cleanup_before_consume
    (st : LocatorState) (k : Key) (q : SvcName) (d1 d2 : Desc)
    (dump : List (SvcName × Desc))
    (h1 : (q, d1) ∈ (alookup st.router.inverted k.uuid).getD [])
    (h2 : (q, d2) ∈ dump)
    (hne : d1 ≠ d2)
    (hdump : ∀ d, (q, d) ∈ dump → d = d2)
    (hcur : ∀ d, (q, d) ∈ (alookup st.router.inverted k.uuid).getD [] → d = d1) :
    ∃ pre post, (on_message st k (Message.chunk dump)).calls = pre ++ post
      ∧ GatewayCall.cleanup k.uuid q ∈ pre
      ∧ GatewayCall.consume k.uuid q d2 ∈ post := by
  have hrem : (q, d1) ∈ ((alookup st.router.inverted k.uuid).getD []).filter
      (fun p => decide (p ∉ dump)) := by
    refine List.mem_filter.mpr ⟨h1, ?_⟩
    have hnotin : (q, d1) ∉ dump := fun hmem => hne (hdump d1 hmem)
    simpa using hnotin
  have hadd : (q, d2) ∈ dump.filter
      (fun p => decide (p ∉ (alookup st.router.inverted k.uuid).getD [])) := by
    refine List.mem_filter.mpr ⟨h2, ?_⟩
    have hnotin : (q, d2) ∉ (alookup st.router.inverted k.uuid).getD [] :=
      fun hmem => hne ((hcur d2 hmem).symm)
    simpa using hnotin
  refine ⟨_, _, rfl, ?_, ?_⟩
  · exact List.mem_map_of_mem _ hrem
  · exact List.mem_map_of_mem _ hadd

/-- Witness for descriptor_change_cleanup_before_consume: peer u republishes
q, changing its descriptor from 1 to 2. -/
theorem descriptor_change_cleanup_before_consume_witness :
    ∃ pre post, (on_message c7_st c7_key (Message.chunk [("q", 2)])).calls = pre ++ post
      ∧ GatewayCall.cleanup c7_key.uuid "q" ∈ pre
      ∧ GatewayCall.consume c7_key.uuid "q" 2 ∈ post :=
  descriptor_change_cleanup_before_consume c7_st c7_key "q" 1 2 [("q", 2)]
    (by decide) (by decide) (by decide)
    (by
      intro d hd
      have hd2 : (("q", d) : SvcName × Desc) = ("q", 2) := List.mem_singleton.mp hd
      exact congrArg Prod.snd hd2)
    (by
      intro d hd
      have hd2 : (("q", d) : SvcName × Desc) = ("q", 1) := List.mem_singleton.mp hd
      exact congrArg Prod.snd hd2)

/-- C10: when a pool is configured and nonempty, the name is fresh, and the
actor bind throws, attach escapes with the popped port permanently removed
from the pool - one port fewer than before, never pushed back - and without
inserting the service into the local catalog. -/
theorem attach_bind_failure_loses_port (st : LocatorState) (n : SvcName) (a : Actor)
    (h1 : locallyAttached st n = false) (h2 : st.usePool = true)
    (h3 : st.ports.isEmpty = false) (h4 : a.runOk = false) :
    attach st n a = AttachOutcome.bindFailed { st with ports := st.ports.tail }
  ∧ ({ st with ports := st.ports.tail } : LocatorState).services = st.services
  ∧ st.ports.tail.length + 1 = st.ports.length := by
  refine ⟨?_, rfl, ?_⟩
  · simp [attach, h1, h2, h3, h4]
  · cases hp : st.ports with
    | nil => rw [hp] at h3; simp at h3
    | cons x xs => simp

/-- Witness for attach_bind_failure_loses_port: the single pooled port 9 is
lost when the bind fails. -/
theorem attach_bind_failure_loses_port_witness :
    attach c10_st "x" { meta := 1, runOk := false }
      = AttachOutcome.bindFailed { c10_st with ports := c10_st.ports.tail }
  ∧ ({ c10_st with ports := c10_st.ports.tail } : LocatorState).services = c10_st.services
  ∧ c10_st.ports.tail.length + 1 = c10_st.ports.length :=
  attach_bind_failure_loses_port c10_st "x" { meta := 1, runOk := false } rfl rfl rfl rfl
